import Mathlib

/-!
Shallow embedding of the runtime coordination engine of `gow`
(`gow_main.go`): the `Main` supervisor state, its init/deinit lifecycle,
the signal relay, the restart arbitration loop (`CmdRun`), the restart
admission predicate (`ShouldRestart`), and the termination sequence
(`Terminate`).  Side-effecting calls are embedded as explicit state
transitions paired with an emitted effect trace.
-/

namespace Gow

/-- Unix signals relevant to the program.  `KILL_SIGS` below picks out the
kill set; the extra constructors model signals outside that set. -/
inductive Sig where
  | sigint
  | sigterm
  | sighup
  | sigquit
  | sigusr1
  | sigwinch
deriving DecidableEq, Repr

/-- Modelled from the spec: an `os.Signal` value as delivered by the OS
notification API; on Unix it wraps a concrete signal.  The registration
call (`signal.Notify`) takes values of this type. -/
structure OsSignal where
  sig : Sig
deriving DecidableEq, Repr

/-- Modelled from the spec: the fixed kill-signal set used by the
signal-relay classification (`KILL_SIGS`, declared outside the main file):
interrupt, terminate, hangup, quit. -/
def KILL_SIGS : List Sig := [.sigint, .sigterm, .sighup, .sigquit]

/-- Modelled from the spec: the registration set passed to the OS
notification API at startup (`KILL_SIGS_OS`, declared outside the main
file): the same four termination signals, as `os.Signal` values. -/
def KILL_SIGS_OS : List OsSignal := [⟨.sigint⟩, ⟨.sigterm⟩, ⟨.sighup⟩, ⟨.sigquit⟩]

/-- Observable effects emitted by the engine, in program order. -/
inductive Eff where
  | stopStdio
  | restoreTerm
  | cancelWatch
  | unsubscribeSignals
  | releaseCmd
  | broadcast (sig : Sig)
  | raiseSelf (sig : Sig)
  | setLastRestart (t : Int)
  | termInter
  | cmdRestart
  | sendRestart
  | sendKill (sig : Sig)
  | logNote (msg : String)
  | logStderr (msg : String)
  | exitCode (code : Nat)
deriving DecidableEq, Repr

/-- Parsed configuration (`Opt`): verbose, lazy, postpone flags, debounce
duration, and the path-allow predicate.  The predicate and the debounce
duration are produced by option parsing, which is external to the core. -/
structure Opt where
  Verb : Bool
  Lazy : Bool
  Postpone : Bool
  Debounce : Int
  AllowPath : String → Bool

/-- A filesystem change event carrying the changed path. -/
structure FsEventData where
  Path : String
deriving DecidableEq, Repr

/-- `FsEvent` is a nilable interface value: `none` models a nil event. -/
abbrev FsEvent := Option FsEventData

/-- The supervisor state (`Main`).  Resource fields are `true` while the
corresponding external resource is acquired: `stdio` the stdio relay,
`termSaved` the saved terminal state, `watcher` a non-nil `Watcher`,
`chanSignals` a non-nil signal channel, `sigRegistered` the OS-level
signal subscription installed by `signal.Notify`, `cmd` the process
handle.  `cmdRunning` embeds the external query `Cmd.IsRunning()`. -/
structure Main where
  Opt : Opt
  cmdRunning : Bool
  lastRestart : Int
  stdio : Bool
  termSaved : Bool
  watcher : Bool
  chanSignals : Bool
  sigRegistered : Bool
  cmd : Bool

/-- Modelled from the spec: `Stdio.Deinit` (outside the main file) stops
the stdio relay, skipping when it was never started. -/
def StdioDeinit (m : Main) : Main × List Eff :=
  if m.stdio then ({ m with stdio := false }, [Eff.stopStdio]) else (m, [])

/-- Modelled from the spec: `TermState.Deinit` (outside the main file)
restores the saved terminal state, skipping when none was saved. -/
def TermStateDeinit (m : Main) : Main × List Eff :=
  if m.termSaved then ({ m with termSaved := false }, [Eff.restoreTerm]) else (m, [])

/-- `WatchDeinit`: when the watcher is non-nil, cancel the filesystem
watch and set the watcher to nil. -/
def WatchDeinit (m : Main) : Main × List Eff :=
  if m.watcher then ({ m with watcher := false }, [Eff.cancelWatch]) else (m, [])

/-- Go `signal.Stop` semantics: remove the channel from the OS signal
registry; removing an unregistered channel changes nothing. -/
def signalStop (m : Main) : Main × List Eff :=
  if m.sigRegistered then ({ m with sigRegistered := false }, [Eff.unsubscribeSignals])
  else (m, [])

/-- `SigDeinit`: when the signal channel is non-nil, call `signal.Stop`
on it.  The channel itself stays non-nil. -/
def SigDeinit (m : Main) : Main × List Eff :=
  if m.chanSignals then signalStop m else (m, [])

/-- Modelled from the spec: `Cmd.Deinit` (outside the main file) releases
the process handle, skipping when none is held. -/
def CmdDeinit (m : Main) : Main × List Eff :=
  if m.cmd then ({ m with cmd := false }, [Eff.releaseCmd]) else (m, [])

/-- `Main.Deinit`: stop the stdio relay, restore terminal state, cancel
the filesystem watch, unsubscribe from OS signals, release the process
handle — in that order, concatenating the emitted effects. -/
def Deinit (m : Main) : Main × List Eff :=
  let s1 := StdioDeinit m
  let s2 := TermStateDeinit s1.1
  let s3 := WatchDeinit s2.1
  let s4 := SigDeinit s3.1
  let s5 := CmdDeinit s4.1
  (s5.1, s1.2 ++ s2.2 ++ s3.2 ++ s4.2 ++ s5.2)

/-- Modelled from the spec: `Debounce.Allow` (outside the main file)
admits a restart exactly when the elapsed time since the last recorded
restart is at least the configured debounce duration. -/
def DebounceAllow (debounce last now : Int) : Bool :=
  decide (debounce ≤ now - last)

/-- `Main.ShouldRestart`: the restart admission predicate.  Go's
short-circuit `&&` first tests the event against nil, so the path is
only read from a non-nil event. -/
def ShouldRestart (m : Main) (now : Int) (event : FsEvent) : Bool :=
  match event with
  | none => false
  | some e =>
    !(m.Opt.Lazy && m.cmdRunning) &&
    m.Opt.AllowPath e.Path &&
    DebounceAllow m.Opt.Debounce m.lastRestart now

/-- `Main.OnFsEvent`: drop the event unless `ShouldRestart` admits it;
otherwise optionally log, then send on the restart channel. -/
def OnFsEvent (m : Main) (now : Int) (event : FsEvent) : List Eff :=
  if !(ShouldRestart m now event) then []
  else
    (if m.Opt.Verb then [Eff.logNote "restarting on FS event"] else []) ++
    [Eff.sendRestart]

/-- `Main.Restart`: send the zero-payload doorbell on the restart channel. -/
def Restart : List Eff := [Eff.sendRestart]

/-- `Main.Kill`: publish a kill signal on the kill channel. -/
def Kill (sig : Sig) : List Eff := [Eff.sendKill sig]

/-- One iteration of the `SigRun` relay body for a consumed signal: a
kill signal is (optionally) logged and published on the kill channel; any
other signal is at most logged. -/
def SigStep (verb : Bool) (sig : Sig) : List Eff :=
  if KILL_SIGS.contains sig then
    (if verb then [Eff.logNote "received kill signal"] else []) ++ Kill sig
  else
    if verb then [Eff.logNote "received unknown signal"] else []

/-- `Main.SigRun`: consume a sequence of raw signal notifications. -/
def SigRun (verb : Bool) (sigs : List Sig) : List Eff :=
  (sigs.map (SigStep verb)).flatten

/-- `Main.Terminate`: broadcast the received signal to the child and its
descendants, run the full teardown, then re-raise the same signal against
the current process. -/
def Terminate (m : Main) (sig : Sig) : Main × List Eff :=
  let d := Deinit m
  (d.1, Eff.broadcast sig :: (d.2 ++ [Eff.raiseSelf sig]))

/-- A value received by the arbitration loop: either the restart doorbell
(tagged with the time at which the loop handles it, the value
`time.Now()` reads then) or a kill signal. -/
inductive Msg where
  | restart (now : Int)
  | kill (sig : Sig)
deriving DecidableEq, Repr

/-- The body of the restart branch of `CmdRun`: record the current time
as the new debounce baseline, send the courtesy terminal interrupt, issue
a fresh restart. -/
def RestartBranch (now : Int) : List Eff :=
  [Eff.setLastRestart now, Eff.termInter, Eff.cmdRestart]

/-- The `select` loop of `CmdRun` over the sequence of channel values it
consumes: the restart branch updates the timestamp and restarts the
child; the kill branch runs `Terminate` and returns its signal.  An
exhausted sequence with no kill means the loop is still blocked: it has
not returned (`none`). -/
def CmdRunLoop (m : Main) : List Msg → List Eff × Option Sig
  | [] => ([], none)
  | Msg.restart now :: rest =>
    let next := CmdRunLoop { m with lastRestart := now } rest
    (RestartBranch now ++ next.1, next.2)
  | Msg.kill sig :: _ => ((Terminate m sig).2, some sig)

/-- `Main.CmdRun`: unless postpone is configured, bootstrap-restart the
child, then enter the arbitration loop. -/
def CmdRun (m : Main) (msgs : List Msg) : List Eff × Option Sig :=
  let boot : List Eff := if m.Opt.Postpone then [] else [Eff.cmdRestart]
  let next := CmdRunLoop m msgs
  (boot ++ next.1, next.2)

/-- `Main.Init` at start time `t0`: all subsystems acquired, no child
started yet, and the last-restart timestamp set to the current time. -/
def Init (opt : Opt) (t0 : Int) : Main :=
  { Opt := opt
    cmdRunning := false
    lastRestart := t0
    stdio := true
    termSaved := true
    watcher := true
    chanSignals := true
    sigRegistered := true
    cmd := true }

/-- The outcome of the program body (`Init` plus `Run`): clean return, or
a panic carrying an error rendered as a message. -/
inductive Outcome where
  | ok
  | panicked (err : String)
deriving DecidableEq, Repr

/-- `Main.Exit` (deferred last, so it runs after `Deinit`): recover a
panic; on error, log it to standard error with the fixed logger prefix
and exit 1, otherwise exit 0. -/
def ExitEffs (o : Outcome) : List Eff :=
  match o with
  | Outcome.ok => [Eff.exitCode 0]
  | Outcome.panicked err => [Eff.logStderr ("[gow] " ++ err), Eff.exitCode 1]

/-- The effect trace of `main` from the moment its body stops (returning
cleanly or panicking) with supervisor state `m`: Go runs the deferred
calls in reverse registration order, so `Deinit` first, then `Exit`. -/
def MainExitTrace (m : Main) (o : Outcome) : List Eff :=
  (Deinit m).2 ++ ExitEffs o

/-- `SigInit`: allocate the signal channel and register the fixed set
`KILL_SIGS_OS` with the OS notification API, returning the registered
set. -/
def SigInit (m : Main) : Main × List OsSignal :=
  ({ m with chanSignals := true, sigRegistered := true }, KILL_SIGS_OS)

/-- A sample configuration used to instantiate universally quantified
results on concrete inputs. -/
def optA : Opt :=
  { Verb := false
    Lazy := false
    Postpone := false
    Debounce := 5
    AllowPath := fun _ => true }

/-- A sample fully initialized supervisor state. -/
def mainA : Main := Init optA 0

/-!
Helper lemmas about the teardown chain.
-/

/-- Every effect emitted by `Deinit` is one of the five teardown
effects. -/
lemma deinit_effs_mem (m : Main) (e : Eff) (h : e ∈ (Deinit m).2) :
    e = Eff.stopStdio ∨ e = Eff.restoreTerm ∨ e = Eff.cancelWatch ∨
      e = Eff.unsubscribeSignals ∨ e = Eff.releaseCmd := by
  rcases m with ⟨o, run, last, a, b, c, d, sg, cm⟩
  cases a <;> cases b <;> cases c <;> cases d <;> cases sg <;> cases cm <;>
    simp [Deinit, StdioDeinit, TermStateDeinit, WatchDeinit, SigDeinit,
      signalStop, CmdDeinit] at h <;> tauto

/-- The state after `Deinit`: every releasable resource is cleared.  The
signal channel value itself survives, and the OS registration is only
removed when the channel is non-nil (otherwise `signal.Stop` is never
reached — but then nothing was ever registered through this channel). -/
lemma deinit_state (m : Main) :
    (Deinit m).1 =
      { m with
          stdio := false
          termSaved := false
          watcher := false
          sigRegistered := m.sigRegistered && !m.chanSignals
          cmd := false } := by
  rcases m with ⟨o, run, last, a, b, c, d, sg, cm⟩
  cases a <;> cases b <;> cases c <;> cases d <;> cases sg <;> cases cm <;> rfl

/-- Running `Deinit` a second time changes nothing and emits nothing. -/
lemma deinit_idem (m : Main) : Deinit (Deinit m).1 = ((Deinit m).1, []) := by
  rcases m with ⟨o, run, last, a, b, c, d, sg, cm⟩
  rw [deinit_state]
  cases d <;> cases sg <;> rfl

/-- The `Deinit` trace is always an in-order sublist of the full
five-step teardown sequence. -/
lemma deinit_effs_sublist (m : Main) :
    (Deinit m).2.Sublist
      [Eff.stopStdio, Eff.restoreTerm, Eff.cancelWatch,
        Eff.unsubscribeSignals, Eff.releaseCmd] := by
  rcases m with ⟨o, run, last, a, b, c, d, sg, cm⟩
  cases a <;> cases b <;> cases c <;> cases d <;> cases sg <;> cases cm <;>
    simp [Deinit, StdioDeinit, TermStateDeinit, WatchDeinit, SigDeinit,
      signalStop, CmdDeinit] <;> decide

/-- `Terminate` never emits a fresh restart. -/
lemma cmdRestart_not_mem_terminate (m : Main) (sig : Sig) :
    Eff.cmdRestart ∉ (Terminate m sig).2 := by
  intro h
  simp [Terminate] at h
  rcases deinit_effs_mem _ _ h with h | h | h | h | h <;> exact Eff.noConfusion h

/-- The loop has returned exactly when a kill value was consumed. -/
lemma cmdRunLoop_isSome_iff (m : Main) (msgs : List Msg) :
    (CmdRunLoop m msgs).2.isSome ↔ ∃ s, Msg.kill s ∈ msgs := by
  induction msgs generalizing m with
  | nil => simp [CmdRunLoop]
  | cons hd t ih =>
    cases hd with
    | restart now => simp [CmdRunLoop, ih]
    | kill s => simp [CmdRunLoop]

/-- When the loop returns with a kill signal, its effect trace ends with
the termination sequence of the state current at the kill. -/
lemma cmdRunLoop_terminate_suffix (m : Main) (msgs : List Msg) (sig : Sig)
    (h : (CmdRunLoop m msgs).2 = some sig) :
    ∃ m' pre, (CmdRunLoop m msgs).1 = pre ++ (Terminate m' sig).2 := by
  induction msgs generalizing m with
  | nil => simp [CmdRunLoop] at h
  | cons hd t ih =>
    cases hd with
    | restart now =>
      simp only [CmdRunLoop] at h ⊢
      obtain ⟨m', pre, hp⟩ := ih { m with lastRestart := now } h
      exact ⟨m', RestartBranch now ++ pre, by rw [hp, List.append_assoc]⟩
    | kill s =>
      simp only [CmdRunLoop, Option.some.injEq] at h ⊢
      subst h
      exact ⟨m, [], rfl⟩

/-- In the loop trace, every issued restart is preceded by a debounce
baseline update: the loop only restarts in response to a consumed restart
value, whose branch records the time first. -/
lemma cmdRunLoop_restart_preceded (m : Main) (msgs : List Msg) :
    ∀ i, (CmdRunLoop m msgs).1.get? i = some Eff.cmdRestart →
      ∃ j t, j < i ∧ (CmdRunLoop m msgs).1.get? j = some (Eff.setLastRestart t) := by
  induction msgs generalizing m with
  | nil => intro i hi; simp [CmdRunLoop] at hi
  | cons hd rest ih =>
    cases hd with
    | restart now =>
      intro i hi
      match i with
      | 0 => simp [CmdRunLoop, RestartBranch] at hi
      | 1 => simp [CmdRunLoop, RestartBranch] at hi
      | 2 => exact ⟨0, now, by omega, rfl⟩
      | (n + 3) =>
        have hi' : (CmdRunLoop { m with lastRestart := now } rest).1.get? n =
            some Eff.cmdRestart := hi
        obtain ⟨j, t, hj, hg⟩ := ih { m with lastRestart := now } n hi'
        exact ⟨j + 3, t, by omega, hg⟩
    | kill s =>
      intro i hi
      have : Eff.cmdRestart ∈ (CmdRunLoop m (Msg.kill s :: rest)).1 :=
        List.get?_mem hi
      have hmem : Eff.cmdRestart ∈ (Terminate m s).2 := this
      exact absurd hmem (cmdRestart_not_mem_terminate m s)

/-- Membership in the kill set agrees with the `contains` test used by
the relay code. -/
lemma kill_sigs_contains_iff (s : Sig) :
    KILL_SIGS.contains s = true ↔ s ∈ KILL_SIGS := by
  cases s <;> decide

/-- When the signal channel is non-nil and registered, the teardown trace
contains the unsubscription step. -/
lemma unsubscribe_mem_deinit (m : Main) (h1 : m.chanSignals = true)
    (h2 : m.sigRegistered = true) :
    Eff.unsubscribeSignals ∈ (Deinit m).2 := by
  rcases m with ⟨o, run, last, a, b, c, d, sg, cm⟩
  simp only at h1 h2
  subst h1
  subst h2
  cases a <;> cases b <;> cases c <;> cases cm <;>
    simp [Deinit, StdioDeinit, TermStateDeinit, WatchDeinit, SigDeinit,
      signalStop, CmdDeinit]

/-!
The claims.
-/

/-- Claim C1: `ShouldRestart` admits a change event exactly when the
event is non-nil, lazy mode is off or the child is not running, the path
satisfies the allow predicate, and the elapsed time since the last
recorded restart is at least the debounce duration; a failing event is
dropped by `OnFsEvent` without any restart being issued. -/
theorem ShouldRestart_admission (m : Main) (now : Int) (event : FsEvent) :
    (ShouldRestart m now event = true ↔
      ∃ e, event = some e ∧
        (m.Opt.Lazy = false ∨ m.cmdRunning = false) ∧
        m.Opt.AllowPath e.Path = true ∧
        m.Opt.Debounce ≤ now - m.lastRestart) ∧
    (ShouldRestart m now event = false → OnFsEvent m now event = []) := by
  constructor
  · cases event with
    | none => simp [ShouldRestart]
    | some e =>
      simp only [ShouldRestart, Bool.and_eq_true, Bool.not_eq_true',
        Bool.and_eq_false_iff, DebounceAllow, decide_eq_true_iff,
        Option.some.injEq]
      constructor
      · rintro ⟨⟨hl, hp⟩, hd⟩
        refine ⟨e, rfl, ?_, hp, hd⟩
        rcases hl with hl | hl
        · exact Or.inl hl
        · exact Or.inr hl
      · rintro ⟨e', he, hl, hp, hd⟩
        cases he
        exact ⟨⟨by tauto, hp⟩, hd⟩
  · intro h
    simp [OnFsEvent, h]

/-- Witness for C1 at a concrete admitted event. -/
theorem ShouldRestart_admission_witness :
    ShouldRestart mainA 10 (some ⟨"main.go"⟩) = true :=
  (ShouldRestart_admission mainA 10 (some ⟨"main.go"⟩)).1.mpr
    ⟨⟨"main.go"⟩, rfl, Or.inl rfl, rfl, by decide⟩

/-- Claim C2: `Terminate` first broadcasts the received signal unchanged,
then runs the full teardown, and re-raises the same signal against the
current process only at the very end — in particular after the signal
unsubscription performed inside the teardown. -/
theorem Terminate_sequence (m : Main) (sig : Sig) :
    (Terminate m sig).2 =
      Eff.broadcast sig :: ((Deinit m).2 ++ [Eff.raiseSelf sig]) ∧
    (∀ t, Eff.broadcast t ∈ (Terminate m sig).2 → t = sig) ∧
    (∃ pre, (Terminate m sig).2 = pre ++ [Eff.raiseSelf sig] ∧
      ∀ t, Eff.raiseSelf t ∉ pre) ∧
    (m.chanSignals = true → m.sigRegistered = true →
      Eff.unsubscribeSignals ∈ (Deinit m).2) := by
  refine ⟨rfl, ?_, ?_, unsubscribe_mem_deinit m⟩
  · intro t ht
    simp [Terminate] at ht
    rcases ht with ht | ht
    · exact ht
    · rcases deinit_effs_mem _ _ ht with h | h | h | h | h <;> exact Eff.noConfusion h
  · refine ⟨Eff.broadcast sig :: (Deinit m).2, by simp [Terminate], ?_⟩
    intro t ht
    rw [List.mem_cons] at ht
    rcases ht with ht | ht
    · exact Eff.noConfusion ht
    · rcases deinit_effs_mem _ _ ht with h | h | h | h | h <;> exact Eff.noConfusion h

/-- Witness for C2: on the fully initialized state the teardown inside
`Terminate` does contain the unsubscription step. -/
theorem Terminate_sequence_witness :
    Eff.unsubscribeSignals ∈ (Deinit mainA).2 :=
  (Terminate_sequence mainA Sig.sigint).2.2.2 rfl rfl

/-- Claim C3: the arbitration loop returns exactly when a kill value is
consumed, and its trace then ends with the termination sequence, which
issues no further restart — nothing runs after it. -/
theorem CmdRun_exits_only_on_kill (m : Main) (msgs : List Msg) :
    ((CmdRun m msgs).2.isSome ↔ ∃ s, Msg.kill s ∈ msgs) ∧
    (∀ sig, (CmdRun m msgs).2 = some sig →
      ∃ m' pre, (CmdRun m msgs).1 = pre ++ (Terminate m' sig).2 ∧
        Eff.cmdRestart ∉ (Terminate m' sig).2) := by
  constructor
  · simpa [CmdRun] using cmdRunLoop_isSome_iff m msgs
  · intro sig hsig
    have h2 : (CmdRunLoop m msgs).2 = some sig := by simpa [CmdRun] using hsig
    obtain ⟨m', pre, hp⟩ := cmdRunLoop_terminate_suffix m msgs sig h2
    refine ⟨m', (if m.Opt.Postpone then [] else [Eff.cmdRestart]) ++ pre, ?_,
      cmdRestart_not_mem_terminate m' sig⟩
    simp [CmdRun, hp]

/-- Witness for C3: a kill value makes the loop return. -/
theorem CmdRun_exits_only_on_kill_witness :
    (CmdRun mainA [Msg.kill Sig.sigint]).2.isSome :=
  (CmdRun_exits_only_on_kill mainA [Msg.kill Sig.sigint]).1.mpr
    ⟨Sig.sigint, by simp⟩

/-- Claim C4: the restart branch records the current time as the new
debounce baseline (threading the overwritten timestamp to the rest of the
loop), sends the courtesy terminal interrupt, and only then issues the
fresh restart. -/
theorem CmdRun_restart_branch_order (m : Main) (now : Int) (rest : List Msg) :
    (CmdRunLoop m (Msg.restart now :: rest)).1 =
      Eff.setLastRestart now :: Eff.termInter :: Eff.cmdRestart ::
        (CmdRunLoop { m with lastRestart := now } rest).1 ∧
    (CmdRunLoop m (Msg.restart now :: rest)).2 =
      (CmdRunLoop { m with lastRestart := now } rest).2 ∧
    (∃ i j, i < j ∧
      (CmdRunLoop m (Msg.restart now :: rest)).1.get? i =
        some (Eff.setLastRestart now) ∧
      (CmdRunLoop m (Msg.restart now :: rest)).1.get? j =
        some Eff.cmdRestart) :=
  ⟨rfl, rfl, 0, 2, by omega, rfl, rfl⟩

/-- Claim C5: with postpone disabled, exactly one bootstrap restart
precedes every loop effect; with postpone enabled there is no bootstrap,
and any restart in the trace is preceded by the handling of a restart
value (whose first effect records the debounce baseline). -/
theorem CmdRun_postpone_bootstrap (m : Main) (msgs : List Msg) :
    (m.Opt.Postpone = false →
      (CmdRun m msgs).1 = Eff.cmdRestart :: (CmdRunLoop m msgs).1) ∧
    (m.Opt.Postpone = true →
      (CmdRun m msgs).1 = (CmdRunLoop m msgs).1 ∧
      ∀ i, (CmdRun m msgs).1.get? i = some Eff.cmdRestart →
        ∃ j t, j < i ∧
          (CmdRun m msgs).1.get? j = some (Eff.setLastRestart t)) := by
  constructor
  · intro h; simp [CmdRun, h]
  · intro h
    have he : (CmdRun m msgs).1 = (CmdRunLoop m msgs).1 := by simp [CmdRun, h]
    refine ⟨he, ?_⟩
    rw [he]
    exact cmdRunLoop_restart_preceded m msgs

/-- Witness for C5: with `optA` (postpone off) the bootstrap restart is
the first effect. -/
theorem CmdRun_postpone_bootstrap_witness :
    (CmdRun mainA []).1 = Eff.cmdRestart :: (CmdRunLoop mainA []).1 :=
  (CmdRun_postpone_bootstrap mainA []).1 rfl

/-- Claim C6: `Deinit` releases resources in the order stdio relay,
terminal state, filesystem watch, signal subscription, process handle —
always an in-order selection of those five steps, the full sequence on a
fully initialized state — and running it a second time changes no state
and emits no effect. -/
theorem Deinit_order_and_idempotent (m : Main) :
    (m.stdio = true → m.termSaved = true → m.watcher = true →
      m.chanSignals = true → m.sigRegistered = true → m.cmd = true →
      (Deinit m).2 = [Eff.stopStdio, Eff.restoreTerm, Eff.cancelWatch,
        Eff.unsubscribeSignals, Eff.releaseCmd]) ∧
    (Deinit m).2.Sublist [Eff.stopStdio, Eff.restoreTerm, Eff.cancelWatch,
      Eff.unsubscribeSignals, Eff.releaseCmd] ∧
    Deinit (Deinit m).1 = ((Deinit m).1, []) := by
  refine ⟨?_, deinit_effs_sublist m, deinit_idem m⟩
  intro h1 h2 h3 h4 h5 h6
  simp [Deinit, StdioDeinit, TermStateDeinit, WatchDeinit, SigDeinit,
    signalStop, CmdDeinit, h1, h2, h3, h4, h5, h6]

/-- Witness for C6: the fully initialized state runs all five teardown
steps in order. -/
theorem Deinit_order_and_idempotent_witness :
    (Deinit mainA).2 = [Eff.stopStdio, Eff.restoreTerm, Eff.cancelWatch,
      Eff.unsubscribeSignals, Eff.releaseCmd] :=
  (Deinit_order_and_idempotent mainA).1 rfl rfl rfl rfl rfl rfl

/-- Claim C7: the signal relay publishes exactly the kill signals on the
kill channel (logging them when verbose); any other signal produces at
most log output — no channel send, no restart, no exit. -/
theorem SigRun_classification (verb : Bool) (sig : Sig) :
    (∀ s, Eff.sendKill s ∈ SigStep verb sig ↔ s = sig ∧ sig ∈ KILL_SIGS) ∧
    (sig ∈ KILL_SIGS → verb = true →
      Eff.logNote "received kill signal" ∈ SigStep verb sig) ∧
    (sig ∉ KILL_SIGS → ∀ e ∈ SigStep verb sig, ∃ msg, e = Eff.logNote msg) := by
  by_cases hmem : sig ∈ KILL_SIGS
  · have hc : KILL_SIGS.contains sig = true :=
      (kill_sigs_contains_iff sig).mpr hmem
    refine ⟨?_, ?_, fun h => absurd hmem h⟩
    · intro s
      cases verb <;> simp [SigStep, Kill, hc, hmem] <;> tauto
    · intro _ hv
      subst hv
      simp [SigStep, Kill, hc, hmem]
  · have hc : KILL_SIGS.contains sig = false := by
      cases h2 : KILL_SIGS.contains sig
      · rfl
      · exact absurd ((kill_sigs_contains_iff sig).mp h2) hmem
    refine ⟨?_, fun h => absurd h hmem, ?_⟩
    · intro s
      cases verb <;> simp [SigStep, Kill, hc, hmem]
    · intro _ e he
      cases verb with
      | false => simp [SigStep, Kill, hc, hmem] at he
      | true =>
        simp [SigStep, Kill, hc, hmem] at he
        exact ⟨_, he⟩

/-- Witness for C7: a terminate signal is published on the kill
channel. -/
theorem SigRun_classification_witness :
    Eff.sendKill Sig.sigterm ∈ SigStep false Sig.sigterm :=
  ((SigRun_classification false Sig.sigterm).1 Sig.sigterm).mpr
    ⟨rfl, by decide⟩

/-- Claim C8: the registration set handed to the OS notification API by
`SigInit` coincides, as a set of signals, with the kill-signal set used
by the relay classification. -/
theorem SigInit_registration_matches (m : Main) (s : Sig) :
    OsSignal.mk s ∈ (SigInit m).2 ↔ s ∈ KILL_SIGS := by
  show OsSignal.mk s ∈ KILL_SIGS_OS ↔ s ∈ KILL_SIGS
  cases s <;> decide

/-- Witness for C8 at a concrete signal. -/
theorem SigInit_registration_matches_witness :
    OsSignal.mk Sig.sighup ∈ (SigInit mainA).2 :=
  (SigInit_registration_matches mainA Sig.sighup).mpr (by decide)

/-- Claim C9: the exit trace always runs the full teardown first (no exit
effect occurs inside it), then exits 0 on a clean outcome, and on a panic
logs the error to standard error with the fixed prefix before exiting
1. -/
theorem Main_exit_discipline (m : Main) (o : Outcome) :
    MainExitTrace m o = (Deinit m).2 ++ ExitEffs o ∧
    (∀ n, Eff.exitCode n ∉ (Deinit m).2) ∧
    (o = Outcome.ok → MainExitTrace m o = (Deinit m).2 ++ [Eff.exitCode 0]) ∧
    (∀ err, o = Outcome.panicked err →
      MainExitTrace m o = (Deinit m).2 ++
        [Eff.logStderr ("[gow] " ++ err), Eff.exitCode 1]) := by
  refine ⟨rfl, ?_, ?_, ?_⟩
  · intro n hn
    rcases deinit_effs_mem _ _ hn with h | h | h | h | h <;> exact Eff.noConfusion h
  · intro h; subst h; rfl
  · intro err h; subst h; rfl

/-- Witness for C9 on the clean path. -/
theorem Main_exit_discipline_witness :
    MainExitTrace mainA Outcome.ok = (Deinit mainA).2 ++ [Eff.exitCode 0] :=
  (Main_exit_discipline mainA Outcome.ok).2.2.1 rfl

/-- Claim C10: `Init` sets the last-restart timestamp to the start time,
so a change event arriving within the debounce window measured from
program start is rejected, independent of postpone mode and before any
actual restart. -/
theorem Init_debounce_window (opt : Opt) (t0 t : Int) (event : FsEvent)
    (ht : t - t0 < opt.Debounce) :
    (Init opt t0).lastRestart = t0 ∧
    ShouldRestart (Init opt t0) t event = false := by
  refine ⟨rfl, ?_⟩
  cases event with
  | none => rfl
  | some e =>
    have hda : DebounceAllow opt.Debounce t0 t = false := by
      simp only [DebounceAllow, decide_eq_false_iff_not]
      omega
    simp [ShouldRestart, Init, hda]

/-- Witness for C10: an event three time units after start is rejected
under a five-unit debounce. -/
theorem Init_debounce_window_witness :
    (Init optA 0).lastRestart = 0 ∧
    ShouldRestart (Init optA 0) 3 (some ⟨"main.go"⟩) = false :=
  Init_debounce_window optA 0 3 (some ⟨"main.go"⟩) (by decide)

end Gow
